import Mathlib

/-!
# Record Loader and Normalizer of the user-activity map script

Shallow embedding of the data-preparation logic of `src/a.py` (the
`load_data` function and the emptiness check that guards rendering).

Modelling decisions, in correspondence with the pandas source:

* A spreadsheet cell is `Cell`: missing (`NaN`), a string, or a number.
  Numbers are embedded as `ℚ`; the float values arising in the claims are
  small decimal literals, represented exactly.  `NaN` in a derived column
  is represented by `Option.none`.
* `df['Custom parameter'].str.extract(r'([\d\.]+)[,\s]+([\d\.]+)')` is
  `extractCell`: a leftmost search of the pattern.  The three character
  classes involved are pairwise disjoint at every boundary of the pattern,
  so the greedy matcher needs no backtracking and is implemented directly
  with `takeWhile`/`dropWhile`.  Character classes are the ASCII parts of
  the Python classes.
* `pd.to_numeric(col, errors='coerce')` is `toNumeric`, elementwise on
  cells; string cells go through `parseFloat?`, a model of Python float
  literal parsing (optional surrounding whitespace, optional sign, digits
  with at most one dot and at least one digit, optional exponent).  The
  literals `inf`/`nan` are outside `ℚ` and are treated as unparseable; no
  claim distinguishes them.
* `.fillna(1)` is `Option.getD … 1`, and `dropna(subset=['lat','lon'])`
  is a filter on definedness of both coordinates.
* The `try/except` of `load_data` is modelled by taking the outcome of
  `pd.read_excel` plus the column accesses as an `Except String` value:
  a raised exception is the `error` case, which `load_data` converts to
  an empty table after reporting a diagnostic (`load_data_eff`).
* The caller's emptiness guard (`if df.empty: st.warning …; st.stop()`)
  is `mainScript`, producing the ordered list of user-visible effects.
* `@st.cache_data` is `cachedCall`/`loadTwice`: the second invocation is
  answered from the cache filled by the first.
-/

namespace UserActivityMap

/-- A spreadsheet cell as pandas sees it: missing (`NaN`), a string, or a
number. -/
inductive Cell where
  | missing : Cell
  | str : String → Cell
  | num : ℚ → Cell
  deriving DecidableEq

/-- One raw spreadsheet row.  The three columns touched by `load_data` are
explicit; every other original column (`Location` among them) is carried in
`others` as name/cell pairs. -/
structure RawRow where
  customParameter : Cell
  eventCount : Cell
  totalUsers : Cell
  others : List (String × Cell)
  deriving DecidableEq

/-- The character class `[\d\.]` of the source regex (ASCII digits or a
dot). -/
def isDigitDot (c : Char) : Bool := c.isDigit || c == '.'

/-- The character class `[,\s]` of the source regex (comma or ASCII
whitespace). -/
def isSep (c : Char) : Bool :=
  c == ',' || c == ' ' || c == '\t' || c == '\n' || c == '\r' || c == '\x0b' || c == '\x0c'

/-- ASCII whitespace stripped around a numeric literal by float parsing. -/
def wsChar (c : Char) : Bool :=
  c == ' ' || c == '\t' || c == '\n' || c == '\r' || c == '\x0b' || c == '\x0c'

/-- Whether a list starts with the given character. -/
def headIs (l : List Char) (c : Char) : Bool :=
  match l with
  | [] => false
  | a :: _ => a == c

/-- One attempted match of `([\d\.]+)[,\s]+([\d\.]+)` anchored at the head
of `l`, returning the two captured groups.  Greedy matching with these
pairwise-disjoint classes never needs backtracking: shortening a greedy run
leaves a character of the same class at the boundary, which the next
component rejects anyway. -/
def tryMatch (l : List Char) : Option (List Char × List Char) :=
  if (l.takeWhile isDigitDot).isEmpty then none
  else if ((l.dropWhile isDigitDot).takeWhile isSep).isEmpty then none
  else if (((l.dropWhile isDigitDot).dropWhile isSep).takeWhile isDigitDot).isEmpty then none
  else some (l.takeWhile isDigitDot,
    ((l.dropWhile isDigitDot).dropWhile isSep).takeWhile isDigitDot)

/-- Leftmost search of the source pattern, as `Series.str.extract`
performs: attempt a match at each start position, left to right. -/
def searchExtract : List Char → Option (List Char × List Char)
  | [] => none
  | c :: cs =>
    match tryMatch (c :: cs) with
    | some r => some r
    | none => searchExtract cs

/-- Value of a digit run, most significant first. -/
def digitsVal (l : List Char) : ℕ :=
  l.foldl (fun a c => 10 * a + (c.toNat - 48)) 0

/-- The rational value denoted by a decimal literal: its leading digit run,
plus the digit run after the dot (if any) scaled down by its length. -/
def decValue (l : List Char) : ℚ :=
  (digitsVal (l.takeWhile Char.isDigit) : ℚ) +
    (digitsVal (((l.dropWhile Char.isDigit).tail).takeWhile Char.isDigit) : ℚ) /
      10 ^ (((l.dropWhile Char.isDigit).tail).takeWhile Char.isDigit).length

/-- Consume an optional leading sign, reporting whether it was a minus. -/
def parseSign (l : List Char) : Bool × List Char :=
  if headIs l '-' then (true, l.tail)
  else if headIs l '+' then (false, l.tail)
  else (false, l)

/-- Parse the mantissa of a float literal: digits with at most one dot and
at least one digit on some side of it.  Returns its value and the unread
remainder. -/
def parseMantissa (l : List Char) : Option (ℚ × List Char) :=
  if headIs (l.dropWhile Char.isDigit) '.' then
    if (l.takeWhile Char.isDigit).isEmpty
        && (((l.dropWhile Char.isDigit).tail).takeWhile Char.isDigit).isEmpty then none
    else some (decValue l, ((l.dropWhile Char.isDigit).tail).dropWhile Char.isDigit)
  else if (l.takeWhile Char.isDigit).isEmpty then none
  else some ((digitsVal (l.takeWhile Char.isDigit) : ℚ), l.dropWhile Char.isDigit)

/-- Negate when the flag is set. -/
def applySign (b : Bool) (q : ℚ) : ℚ := if b then -q else q

/-- After the mantissa: accept end of input (up to trailing whitespace) or
an exponent part, otherwise fail. -/
def parseAfterMantissa (neg : Bool) (m : ℚ) (r : List Char) : Option ℚ :=
  if (r.dropWhile wsChar).isEmpty then some (applySign neg m)
  else if headIs r 'e' || headIs r 'E' then
    if ((parseSign r.tail).2.takeWhile Char.isDigit).isEmpty then none
    else if (((parseSign r.tail).2.dropWhile Char.isDigit).dropWhile wsChar).isEmpty then
      some (if (parseSign r.tail).1 then
          applySign neg m / 10 ^ digitsVal ((parseSign r.tail).2.takeWhile Char.isDigit)
        else
          applySign neg m * 10 ^ digitsVal ((parseSign r.tail).2.takeWhile Char.isDigit))
    else none
  else none

/-- Python-style float literal parsing on a character list. -/
def parseFloatChars (l : List Char) : Option ℚ :=
  match parseMantissa (parseSign (l.dropWhile wsChar)).2 with
  | none => none
  | some mr => parseAfterMantissa (parseSign (l.dropWhile wsChar)).1 mr.1 mr.2

/-- Numeric value of a string, `none` on parse failure. -/
def parseFloat? (s : String) : Option ℚ := parseFloatChars s.data

/-- `pd.to_numeric(x, errors='coerce')` on one cell: numbers pass through,
strings are parsed, anything else coerces to `NaN`. -/
def toNumeric : Cell → Option ℚ
  | Cell.missing => none
  | Cell.num q => some q
  | Cell.str s => parseFloat? s

/-- `str.extract` on one cell: only string cells can match; the captures of
the leftmost match are returned as strings. -/
def extractCell : Cell → Option (String × String)
  | Cell.str s => (searchExtract s.data).map (fun p => (String.mk p.1, String.mk p.2))
  | _ => none

/-- One output row: the derived coordinate columns (possibly `NaN` before
the final filter), the two coerced count columns, and every original
column the pipeline does not overwrite. -/
structure NormRow where
  lat : Option ℚ
  lon : Option ℚ
  eventCount : ℚ
  totalUsers : ℚ
  customParameter : Cell
  others : List (String × Cell)
  deriving DecidableEq

/-- Rows 16 to 22 of the source applied to one row: extract both capture
groups from `Custom parameter`, coerce each to a number, and coerce and
default-fill the two count columns in place. -/
def normalizeRow (r : RawRow) : NormRow :=
  { lat := (extractCell r.customParameter).bind (fun p => parseFloat? p.1)
    lon := (extractCell r.customParameter).bind (fun p => parseFloat? p.2)
    eventCount := (toNumeric r.eventCount).getD 1
    totalUsers := (toNumeric r.totalUsers).getD 1
    customParameter := r.customParameter
    others := r.others }

/-- The `dropna(subset=['lat','lon'])` criterion. -/
def keepRow (r : NormRow) : Bool := r.lat.isSome && r.lon.isSome

/-- The whole in-`try` pipeline of `load_data` on a successfully read
table. -/
def processTable (rows : List RawRow) : List NormRow :=
  (rows.map normalizeRow).filter keepRow

/-- An effect visible to the user, in the order the script emits them. -/
inductive Effect where
  | errorMsg : String → Effect
  | warning : String → Effect
  | write : String → Effect
  | stop : Effect
  | render : Effect
  deriving DecidableEq

/-- `load_data` with its reporting: on a read/schema failure the `except`
branch emits `st.error` and yields an empty table; otherwise the pipeline
output is returned with no diagnostic. -/
def load_data_eff : Except String (List RawRow) → List Effect × List NormRow
  | Except.ok rows => ([], processTable rows)
  | Except.error e => ([Effect.errorMsg ("Data loading error: " ++ e)], [])

/-- The value `load_data` returns to the caller. -/
def load_data (input : Except String (List RawRow)) : List NormRow :=
  (load_data_eff input).2

/-- The `st.warning` text of the emptiness guard. -/
def noValidDataMsg : String := "No valid data found! Check your Excel file."

/-- The `st.write` text naming the required columns. -/
def requiredColumnsMsg : String :=
  "Required columns: \x27Custom parameter\x27 (with lat,lon), \x27Event count\x27, \x27Total users\x27"

/-- The caller around `load_data`: when the result is empty it warns, names
the required columns and stops; otherwise the script goes on to render the
map. -/
def mainScript (input : Except String (List RawRow)) : List Effect :=
  if (load_data input).isEmpty then
    [Effect.warning noValidDataMsg, Effect.write requiredColumnsMsg, Effect.stop]
  else
    [Effect.render]

/-- The decimal-number grammar as the spec states it: one-or-more digits
optionally followed by a literal dot and more digits (unsigned, no
exponent). -/
inductive SpecDecimal : List Char → Prop where
  | digits (l : List Char) (h1 : l ≠ []) (h2 : l.all Char.isDigit = true) : SpecDecimal l
  | dotted (ip fp : List Char) (h1 : ip ≠ []) (h2 : ip.all Char.isDigit = true)
      (h3 : fp ≠ []) (h4 : fp.all Char.isDigit = true) : SpecDecimal (ip ++ '.' :: fp)

/-- Greedy match of one spec decimal at the head of `l`: the digit run,
extended by a dot and a further digit run only when both are present.
Returns the matched literal and the remainder.  As with the source
pattern, greediness is unambiguous here: dropping the fractional part
leaves a dot, which no continuation of the spec pattern accepts. -/
def specDecHead (l : List Char) : Option (List Char × List Char) :=
  if (l.takeWhile Char.isDigit).isEmpty then none
  else if headIs (l.dropWhile Char.isDigit) '.'
      && !(((l.dropWhile Char.isDigit).tail).takeWhile Char.isDigit).isEmpty then
    some (l.takeWhile Char.isDigit
        ++ '.' :: ((l.dropWhile Char.isDigit).tail).takeWhile Char.isDigit,
      ((l.dropWhile Char.isDigit).tail).dropWhile Char.isDigit)
  else some (l.takeWhile Char.isDigit, l.dropWhile Char.isDigit)

/-- One attempted match of the spec pattern — decimal, one-or-more
comma/whitespace, decimal — anchored at the head of `l`, returning the two
captured decimals. -/
def specTryMatch (l : List Char) : Option (List Char × List Char) :=
  match specDecHead l with
  | none => none
  | some d1r =>
    if ((d1r.2).takeWhile isSep).isEmpty then none
    else
      match specDecHead ((d1r.2).dropWhile isSep) with
      | none => none
      | some d2r => some (d1r.1, d2r.1)

/-- Leftmost search of the spec pattern over a field. -/
def specSearch : List Char → Option (List Char × List Char)
  | [] => none
  | c :: cs =>
    match specTryMatch (c :: cs) with
    | some r => some r
    | none => specSearch cs

/-- One call through the `@st.cache_data` wrapper: a filled cache answers
without recomputing, an empty cache computes and stores. -/
def cachedCall (cache : Option (List NormRow)) (input : Except String (List RawRow)) :
    List NormRow × Option (List NormRow) :=
  match cache with
  | some v => (v, some v)
  | none => (load_data input, some (load_data input))

/-- Two consecutive invocations against the same input, threading the
cache. -/
def loadTwice (input : Except String (List RawRow)) : List NormRow × List NormRow :=
  ((cachedCall none input).1, (cachedCall (cachedCall none input).2 input).1)

/-- Counterexample row for the spec-pattern extraction claim: the spec
pattern finds `2.3, 4.5` inside this field, but the coarser source class
`[\d\.]+` captures `1.2.3`, which fails numeric coercion, so the row is
dropped. -/
def cexRow1 : RawRow :=
  { customParameter := Cell.str ("1.2.3, 4.5"), eventCount := Cell.str ("7"),
    totalUsers := Cell.str ("8"), others := [] }

/-- Counterexample row for the non-matching-rows-are-absent claim: the spec
pattern matches nowhere in `5. 6.`, yet the source captures `5.` and `6.`,
both of which coerce to numbers, so the row is kept. -/
def cexRow2 : RawRow :=
  { customParameter := Cell.str ("5. 6."), eventCount := Cell.missing,
    totalUsers := Cell.missing, others := [] }

/-- Counterexample row for the frame claim: its original `Event count` cell
is the empty string, which the pipeline overwrites in place with the
default `1.0`. -/
def cexRow6 : RawRow :=
  { customParameter := Cell.str ("9.03, 38.74"), eventCount := Cell.str (""),
    totalUsers := Cell.str ("42"), others := [(("Location" : String), Cell.str ("Addis"))] }

/-- Witness decimals and row for the full-match extraction theorem. -/
def w1d1 : List Char := ['9', '.', '0', '3']

/-- Witness separator run. -/
def w1sep : List Char := [',', ' ']

/-- Witness second decimal. -/
def w1d2 : List Char := ['3', '8', '.', '7', '4']

/-- Witness row whose field is exactly decimal, separators, decimal. -/
def w1Row : RawRow :=
  { customParameter := Cell.str (String.mk (w1d1 ++ (w1sep ++ w1d2))),
    eventCount := Cell.str ("3"), totalUsers := Cell.str ("4"), others := [] }

/-- Witness row whose field matches nothing extractable. -/
def w2Row : RawRow :=
  { customParameter := Cell.str ("invalid"), eventCount := Cell.missing,
    totalUsers := Cell.missing, others := [] }

/-- Witness row with a blank count cell and a parseable one. -/
def w3Row : RawRow :=
  { customParameter := Cell.str ("9.03, 38.74"), eventCount := Cell.str (""),
    totalUsers := Cell.str ("42"), others := [] }

/-- Witness row with numeric count cells. -/
def w5Row : RawRow :=
  { customParameter := Cell.str ("1, 2"), eventCount := Cell.num 3,
    totalUsers := Cell.num 4, others := [] }

/-- Witness row carrying an untouched extra column. -/
def w6Row : RawRow :=
  { customParameter := Cell.str ("7, 8"), eventCount := Cell.str ("x"),
    totalUsers := Cell.num 5, others := [(("Location" : String), Cell.str ("Bahir Dar"))] }

/-- Witness first decimal for the signed-field theorem. -/
def w9d1 : List Char := ['9', '.', '0', '3']

/-- Witness separator run for the signed-field theorem. -/
def w9sep : List Char := [',', ' ']

/-- Witness second decimal for the signed-field theorem. -/
def w9d2 : List Char := ['3', '8', '.', '7', '4']

/-- Witness row whose field carries a leading minus sign. -/
def w9Row : RawRow :=
  { customParameter := Cell.str (String.mk ('-' :: (w9d1 ++ (w9sep ++ w9d2)))),
    eventCount := Cell.missing, totalUsers := Cell.missing, others := [] }

/-! ## List and character-class lemmas -/

theorem takeWhile_nil_of_neg {p : Char → Bool} {c : Char} (l : List Char)
    (h : p c = false) : (c :: l).takeWhile p = [] := by
  simp [List.takeWhile_cons, h]

theorem dropWhile_cons_of_neg {p : Char → Bool} {c : Char} (l : List Char)
    (h : p c = false) : (c :: l).dropWhile p = c :: l := by
  simp [List.dropWhile_cons, h]

theorem takeWhile_append_all {p : Char → Bool} {l1 : List Char} (l2 : List Char)
    (h : l1.all p = true) : (l1 ++ l2).takeWhile p = l1 ++ l2.takeWhile p := by
  induction l1 with
  | nil => simp
  | cons c t ih =>
    simp only [List.all_cons, Bool.and_eq_true] at h
    simp only [List.cons_append, List.takeWhile_cons, h.1, if_true, ih h.2]

theorem dropWhile_append_all {p : Char → Bool} {l1 : List Char} (l2 : List Char)
    (h : l1.all p = true) : (l1 ++ l2).dropWhile p = l2.dropWhile p := by
  induction l1 with
  | nil => simp
  | cons c t ih =>
    simp only [List.all_cons, Bool.and_eq_true] at h
    simp only [List.cons_append, List.dropWhile_cons, h.1, if_true, ih h.2]

theorem takeWhile_all_self {p : Char → Bool} {l : List Char}
    (h : l.all p = true) : l.takeWhile p = l := by
  induction l with
  | nil => rfl
  | cons c t ih =>
    simp only [List.all_cons, Bool.and_eq_true] at h
    simp only [List.takeWhile_cons, h.1, if_true, ih h.2]

theorem dropWhile_all_nil {p : Char → Bool} {l : List Char}
    (h : l.all p = true) : l.dropWhile p = [] := by
  induction l with
  | nil => rfl
  | cons c t ih =>
    simp only [List.all_cons, Bool.and_eq_true] at h
    simp only [List.dropWhile_cons, h.1, if_true, ih h.2]

theorem sep_not_digitDot {c : Char} (h : isSep c = true) : isDigitDot c = false := by
  simp only [isSep, Bool.or_eq_true, beq_iff_eq] at h
  rcases h with (((((h | h) | h) | h) | h) | h) | h <;> subst h <;> decide

theorem sep_not_digit {c : Char} (h : isSep c = true) : c.isDigit = false := by
  simp only [isSep, Bool.or_eq_true, beq_iff_eq] at h
  rcases h with (((((h | h) | h) | h) | h) | h) | h <;> subst h <;> decide

theorem ws_not_digit {c : Char} (h : wsChar c = true) : c.isDigit = false := by
  simp only [wsChar, Bool.or_eq_true, beq_iff_eq] at h
  rcases h with ((((h | h) | h) | h) | h) | h <;> subst h <;> decide

theorem digit_not_sep {c : Char} (h : c.isDigit = true) : isSep c = false := by
  cases hs : isSep c with
  | false => rfl
  | true => rw [sep_not_digit hs] at h; exact Bool.noConfusion h

theorem digit_not_ws {c : Char} (h : c.isDigit = true) : wsChar c = false := by
  cases hs : wsChar c with
  | false => rfl
  | true => rw [ws_not_digit hs] at h; exact Bool.noConfusion h

theorem digit_beq_eq_false {c d : Char} (h : c.isDigit = true) (hd : d.isDigit = false) :
    (c == d) = false := by
  cases he : c == d with
  | false => rfl
  | true =>
    have hcd : c = d := eq_of_beq he
    subst hcd
    rw [h] at hd
    exact Bool.noConfusion hd

/-! ## Shape of spec decimals -/

theorem specDecimal_all_digitDot {d : List Char} (hd : SpecDecimal d) :
    d.all isDigitDot = true := by
  cases hd with
  | digits l h1 h2 =>
    rw [List.all_eq_true] at h2 ⊢
    intro x hx
    simp [isDigitDot, h2 x hx]
  | dotted ip fp h1 h2 h3 h4 =>
    rw [List.all_eq_true] at h2 h4 ⊢
    intro x hx
    rcases List.mem_append.mp hx with hx | hx
    · simp [isDigitDot, h2 x hx]
    · rcases List.mem_cons.mp hx with hx | hx
      · subst hx; decide
      · simp [isDigitDot, h4 x hx]

theorem specDecimal_head_digit {d : List Char} (hd : SpecDecimal d) :
    ∃ c t, d = c :: t ∧ c.isDigit = true := by
  cases hd with
  | digits l h1 h2 =>
    obtain ⟨c, t, rfl⟩ := List.exists_cons_of_ne_nil h1
    simp only [List.all_cons, Bool.and_eq_true] at h2
    exact ⟨c, t, rfl, h2.1⟩
  | dotted ip fp h1 h2 h3 h4 =>
    obtain ⟨c, t, rfl⟩ := List.exists_cons_of_ne_nil h1
    simp only [List.all_cons, Bool.and_eq_true] at h2
    exact ⟨c, t ++ '.' :: fp, rfl, h2.1⟩

/-! ## The source pattern on well-formed fields -/

theorem searchExtract_cons_of_some {c : Char} {cs : List Char}
    {r : List Char × List Char} (h : tryMatch (c :: cs) = some r) :
    searchExtract (c :: cs) = some r := by
  unfold searchExtract
  rw [h]

theorem searchExtract_cons_of_none {c : Char} {cs : List Char}
    (h : tryMatch (c :: cs) = none) :
    searchExtract (c :: cs) = searchExtract cs := by
  simp only [searchExtract, h]

theorem tryMatch_spec {d1 sep d2 : List Char}
    (hd1 : SpecDecimal d1) (hd2 : SpecDecimal d2)
    (hsepNe : sep ≠ []) (hsepAll : sep.all isSep = true) :
    tryMatch (d1 ++ (sep ++ d2)) = some (d1, d2) := by
  obtain ⟨s0, st, hsepe⟩ := List.exists_cons_of_ne_nil hsepNe
  obtain ⟨c2, t2, hd2e, hc2⟩ := specDecimal_head_digit hd2
  have hs0 : isSep s0 = true := by
    rw [hsepe] at hsepAll
    simp only [List.all_cons, Bool.and_eq_true] at hsepAll
    exact hsepAll.1
  have h1 : (d1 ++ (sep ++ d2)).takeWhile isDigitDot = d1 := by
    rw [takeWhile_append_all _ (specDecimal_all_digitDot hd1), hsepe, List.cons_append,
      takeWhile_nil_of_neg _ (sep_not_digitDot hs0), List.append_nil]
  have h2 : (d1 ++ (sep ++ d2)).dropWhile isDigitDot = sep ++ d2 := by
    rw [dropWhile_append_all _ (specDecimal_all_digitDot hd1), hsepe, List.cons_append,
      dropWhile_cons_of_neg _ (sep_not_digitDot hs0), ← List.cons_append]
  have h3 : (sep ++ d2).takeWhile isSep = sep := by
    rw [takeWhile_append_all _ hsepAll, hd2e,
      takeWhile_nil_of_neg _ (digit_not_sep hc2), List.append_nil]
  have h4 : (sep ++ d2).dropWhile isSep = d2 := by
    rw [dropWhile_append_all _ hsepAll, hd2e, dropWhile_cons_of_neg _ (digit_not_sep hc2)]
  have h5 : d2.takeWhile isDigitDot = d2 :=
    takeWhile_all_self (specDecimal_all_digitDot hd2)
  obtain ⟨c1, t1, hd1e, hc1⟩ := specDecimal_head_digit hd1
  unfold tryMatch
  rw [h2, h3, h4, h5, h1]
  rw [hd1e, hsepe, hd2e]
  simp

theorem searchExtract_spec {d1 sep d2 : List Char}
    (hd1 : SpecDecimal d1) (hd2 : SpecDecimal d2)
    (hsepNe : sep ≠ []) (hsepAll : sep.all isSep = true) :
    searchExtract (d1 ++ (sep ++ d2)) = some (d1, d2) := by
  have htm := tryMatch_spec hd1 hd2 hsepNe hsepAll
  obtain ⟨c1, t1, hd1e, hc1⟩ := specDecimal_head_digit hd1
  have hshape : d1 ++ (sep ++ d2) = c1 :: (t1 ++ (sep ++ d2)) := by
    rw [hd1e, List.cons_append]
  rw [hshape] at htm ⊢
  exact searchExtract_cons_of_some htm

theorem searchExtract_dash {d1 sep d2 : List Char}
    (hd1 : SpecDecimal d1) (hd2 : SpecDecimal d2)
    (hsepNe : sep ≠ []) (hsepAll : sep.all isSep = true) :
    searchExtract ('-' :: (d1 ++ (sep ++ d2))) = some (d1, d2) := by
  have h0 : tryMatch ('-' :: (d1 ++ (sep ++ d2))) = none := by
    unfold tryMatch
    rw [takeWhile_nil_of_neg _ (by decide : isDigitDot '-' = false)]
    simp
  rw [searchExtract_cons_of_none h0]
  exact searchExtract_spec hd1 hd2 hsepNe hsepAll

/-! ## Numeric coercion of spec decimals -/

theorem parseMantissa_specDecimal {d : List Char} (hd : SpecDecimal d) :
    parseMantissa d = some (decValue d, []) := by
  cases hd with
  | digits l h1 h2 =>
    have htw := takeWhile_all_self h2
    have hdw := dropWhile_all_nil h2
    have hne : d.isEmpty = false := by
      obtain ⟨a, t, rfl⟩ := List.exists_cons_of_ne_nil h1
      rfl
    unfold parseMantissa
    rw [hdw, htw, hne]
    simp only [headIs, Bool.false_eq_true, if_false]
    unfold decValue
    rw [htw, hdw]
    simp [digitsVal]
  | dotted ip fp h1 h2 h3 h4 =>
    have htw : (ip ++ '.' :: fp).takeWhile Char.isDigit = ip := by
      rw [takeWhile_append_all _ h2, takeWhile_nil_of_neg _ (by decide), List.append_nil]
    have hdw : (ip ++ '.' :: fp).dropWhile Char.isDigit = '.' :: fp := by
      rw [dropWhile_append_all _ h2, dropWhile_cons_of_neg _ (by decide)]
    have hne : ip.isEmpty = false := by
      obtain ⟨a, t, rfl⟩ := List.exists_cons_of_ne_nil h1
      rfl
    unfold parseMantissa
    rw [hdw, htw, hne]
    simp only [headIs, List.tail_cons, takeWhile_all_self h4, dropWhile_all_nil h4,
      beq_self_eq_true, if_true, Bool.false_and, Bool.false_eq_true, if_false]

theorem parseFloatChars_specDecimal {d : List Char} (hd : SpecDecimal d) :
    parseFloatChars d = some (decValue d) := by
  obtain ⟨c, t, hde, hc⟩ := specDecimal_head_digit hd
  have hws : d.dropWhile wsChar = d := by
    rw [hde]
    exact dropWhile_cons_of_neg _ (digit_not_ws hc)
  have hsign : parseSign d = (false, d) := by
    unfold parseSign
    rw [hde]
    simp only [headIs, List.tail_cons]
    rw [digit_beq_eq_false hc (by decide), digit_beq_eq_false hc (by decide)]
    simp
  unfold parseFloatChars
  rw [hws, hsign, parseMantissa_specDecimal hd]
  unfold parseAfterMantissa applySign
  simp

/-! ## Membership in the pipeline output -/

theorem extractCell_str {s : String} {d1 d2 : List Char}
    (h : searchExtract s.data = some (d1, d2)) :
    extractCell (Cell.str s) = some (String.mk d1, String.mk d2) := by
  simp only [extractCell]
  rw [h]
  rfl

theorem normalizeRow_coords {r : RawRow} {d1 d2 : List Char}
    (hex : extractCell r.customParameter = some (String.mk d1, String.mk d2)) :
    (normalizeRow r).lat = parseFloatChars d1 ∧ (normalizeRow r).lon = parseFloatChars d2 := by
  constructor
  · show (extractCell r.customParameter).bind (fun p => parseFloat? p.1) = parseFloatChars d1
    rw [hex]
    rfl
  · show (extractCell r.customParameter).bind (fun p => parseFloat? p.2) = parseFloatChars d2
    rw [hex]
    rfl

theorem mem_processTable_of {rows : List RawRow} {r : RawRow} (hmem : r ∈ rows)
    (hk : keepRow (normalizeRow r) = true) :
    normalizeRow r ∈ processTable rows := by
  unfold processTable
  exact List.mem_filter.mpr ⟨List.mem_map_of_mem _ hmem, hk⟩

theorem mem_processTable_elim {rows : List RawRow} {out : NormRow}
    (h : out ∈ processTable rows) :
    ∃ r, r ∈ rows ∧ out = normalizeRow r ∧ keepRow out = true := by
  unfold processTable at h
  obtain ⟨hm, hk⟩ := List.mem_filter.mp h
  obtain ⟨r, hr, he⟩ := List.mem_map.mp hm
  exact ⟨r, hr, he.symm, hk⟩

/-! ## The claims -/

/-- Claim C1, counterexample to the claim as stated: in the field
`1.2.3, 4.5` the spec pattern finds a match, capturing `2.3` and `4.5`, so
the claim puts the row in the output with those coordinates; the source
instead captures `1.2.3` under its coarser class `[\d\.]+`, the numeric
coercion of that capture is `NaN`, and the row is dropped, leaving the
output empty. -/
theorem C1_counterexample :
    specSearch (("1.2.3, 4.5").data) = some ((("2.3").data), (("4.5").data)) ∧
      load_data (Except.ok [cexRow1]) = [] := by
  exact ⟨by decide, rfl⟩

/-- Claim C1, amended: for every row whose `Custom parameter` consists
exactly of a spec decimal, then one-or-more comma/whitespace, then a second
spec decimal, the Loader's output contains that row with numeric `lat` the
value of the first decimal and `lon` the value of the second. -/
theorem C1_theorem (rows : List RawRow) (r : RawRow) (d1 sep d2 : List Char)
    (hmem : r ∈ rows)
    (hfield : r.customParameter = Cell.str (String.mk (d1 ++ (sep ++ d2))))
    (hd1 : SpecDecimal d1) (hd2 : SpecDecimal d2)
    (hsepNe : sep ≠ []) (hsepAll : sep.all isSep = true) :
    normalizeRow r ∈ processTable rows ∧
      (normalizeRow r).lat = some (decValue d1) ∧
      (normalizeRow r).lon = some (decValue d2) := by
  have hse : searchExtract (String.mk (d1 ++ (sep ++ d2))).data = some (d1, d2) :=
    searchExtract_spec hd1 hd2 hsepNe hsepAll
  have hex : extractCell r.customParameter = some (String.mk d1, String.mk d2) := by
    rw [hfield]
    exact extractCell_str hse
  obtain ⟨hlat, hlon⟩ := normalizeRow_coords hex
  have hlat2 : (normalizeRow r).lat = some (decValue d1) := by
    rw [hlat, parseFloatChars_specDecimal hd1]
  have hlon2 : (normalizeRow r).lon = some (decValue d2) := by
    rw [hlon, parseFloatChars_specDecimal hd2]
  refine ⟨?_, hlat2, hlon2⟩
  apply mem_processTable_of hmem
  unfold keepRow
  rw [hlat2, hlon2]
  rfl

/-- Claim C1 witness: the amended theorem applied to the one-row table
whose field is `9.03, 38.74`. -/
theorem C1_witness :
    normalizeRow w1Row ∈ processTable [w1Row] ∧
      (normalizeRow w1Row).lat = some (decValue w1d1) ∧
      (normalizeRow w1Row).lon = some (decValue w1d2) :=
  C1_theorem [w1Row] w1Row w1d1 w1sep w1d2 (List.mem_singleton.mpr rfl) rfl
    (SpecDecimal.dotted ['9'] ['0', '3'] (by decide) (by decide) (by decide) (by decide))
    (SpecDecimal.dotted ['3', '8'] ['7', '4'] (by decide) (by decide) (by decide) (by decide))
    (by decide) (by decide)

/-- Claim C2, counterexample to the claim as stated: the spec pattern
matches nowhere in the field `5. 6.`, so the claim requires that row to be
absent; the source captures `5.` and `6.`, both coerce to numbers, and the
row survives in the output with coordinates 5 and 6. -/
theorem C2_counterexample :
    specSearch (("5. 6.").data) = none ∧
      load_data (Except.ok [cexRow2]) = [normalizeRow cexRow2] ∧
      (normalizeRow cexRow2).lat = some 5 ∧
      (normalizeRow cexRow2).lon = some 6 := by
  have hv5 : decValue (['5', '.']) = 5 := by
    unfold decValue
    rw [(by decide : (['5', '.'] : List Char).takeWhile Char.isDigit = ['5']),
      (by decide : (['5', '.'] : List Char).dropWhile Char.isDigit = ['.']),
      (by decide : digitsVal ['5'] = 5)]
    simp [digitsVal]
  have hv6 : decValue (['6', '.']) = 6 := by
    unfold decValue
    rw [(by decide : (['6', '.'] : List Char).takeWhile Char.isDigit = ['6']),
      (by decide : (['6', '.'] : List Char).dropWhile Char.isDigit = ['.']),
      (by decide : digitsVal ['6'] = 6)]
    simp [digitsVal]
  refine ⟨by decide, rfl, ?_, ?_⟩
  · show some (decValue (['5', '.'])) = some 5
    exact congrArg some hv5
  · show some (decValue (['6', '.'])) = some 6
    exact congrArg some hv6

/-- Claim C2, amended: a row is absent from the Loader's output whenever
the source's own extraction does not yield two numerically-coercible
captures, that is, whenever its derived `lat` or `lon` coercion is `NaN`. -/
theorem C2_theorem (rows : List RawRow) (r : RawRow)
    (h : (extractCell r.customParameter).bind (fun p => parseFloat? p.1) = none ∨
      (extractCell r.customParameter).bind (fun p => parseFloat? p.2) = none) :
    normalizeRow r ∉ processTable rows := by
  intro hmem
  unfold processTable at hmem
  have hk := (List.mem_filter.mp hmem).2
  rcases h with h | h
  · have hl : (normalizeRow r).lat = none := h
    simp [keepRow, hl] at hk
  · have hl : (normalizeRow r).lon = none := h
    simp [keepRow, hl] at hk

/-- Claim C2 witness: the amended theorem applied at the field `invalid`,
where the extraction finds no match at all. -/
theorem C2_witness : normalizeRow w2Row ∉ processTable [w2Row] :=
  C2_theorem [w2Row] w2Row (Or.inl rfl)

/-- Claim C3: every output row's `eventCount` and `totalUsers` are defined
total numbers — each is the numeric coercion of the corresponding input
cell whenever that coercion succeeds, and exactly 1 otherwise, covering
missing, blank and unparseable cells alike. -/
theorem C3_theorem (rows : List RawRow) (out : NormRow)
    (h : out ∈ processTable rows) :
    ∃ r, r ∈ rows ∧ out = normalizeRow r ∧
      out.eventCount = (toNumeric r.eventCount).getD 1 ∧
      out.totalUsers = (toNumeric r.totalUsers).getD 1 ∧
      (toNumeric r.eventCount = none → out.eventCount = 1) ∧
      (∀ q : ℚ, toNumeric r.eventCount = some q → out.eventCount = q) ∧
      (toNumeric r.totalUsers = none → out.totalUsers = 1) ∧
      (∀ q : ℚ, toNumeric r.totalUsers = some q → out.totalUsers = q) := by
  obtain ⟨r, hr, he, hk⟩ := mem_processTable_elim h
  subst he
  refine ⟨r, hr, rfl, rfl, rfl, ?_, ?_, ?_, ?_⟩
  · intro hn
    show (toNumeric r.eventCount).getD 1 = 1
    rw [hn]
    rfl
  · intro q hq
    show (toNumeric r.eventCount).getD 1 = q
    rw [hq]
    rfl
  · intro hn
    show (toNumeric r.totalUsers).getD 1 = 1
    rw [hn]
    rfl
  · intro q hq
    show (toNumeric r.totalUsers).getD 1 = q
    rw [hq]
    rfl

/-- Claim C3 witness: the theorem applied to a surviving row whose
`Event count` is blank (defaulted to 1) and whose `Total users` parses. -/
theorem C3_witness :
    ∃ r, r ∈ [w3Row] ∧ normalizeRow w3Row = normalizeRow r ∧
      (normalizeRow w3Row).eventCount = (toNumeric r.eventCount).getD 1 ∧
      (normalizeRow w3Row).totalUsers = (toNumeric r.totalUsers).getD 1 ∧
      (toNumeric r.eventCount = none → (normalizeRow w3Row).eventCount = 1) ∧
      (∀ q : ℚ, toNumeric r.eventCount = some q → (normalizeRow w3Row).eventCount = q) ∧
      (toNumeric r.totalUsers = none → (normalizeRow w3Row).totalUsers = 1) ∧
      (∀ q : ℚ, toNumeric r.totalUsers = some q → (normalizeRow w3Row).totalUsers = q) :=
  C3_theorem [w3Row] (normalizeRow w3Row) (by exact List.mem_singleton.mpr rfl)

/-- Claim C4: the Loader is total over every read outcome — a successful
read yields the normalized pipeline output with no diagnostic, and any
failure yields the empty table together with the human-readable error
message; there is no third case, so no exception reaches the caller. -/
theorem C4_theorem (input : Except String (List RawRow)) :
    (∃ rows, input = Except.ok rows ∧
        load_data_eff input = ([], processTable rows)) ∨
      (∃ msg, input = Except.error msg ∧
        load_data_eff input =
          ([Effect.errorMsg ("Data loading error: " ++ msg)], [])) := by
  cases input with
  | ok rows => exact Or.inl ⟨rows, rfl, rfl⟩
  | error msg => exact Or.inr ⟨msg, rfl, rfl⟩

/-- Claim C5: output invariant — every returned record has both
coordinates present (non-`NaN`), and is the normalization of an actual
input row rather than a defaulted substitute for a failed extraction. -/
theorem C5_theorem (input : Except String (List RawRow)) (out : NormRow)
    (h : out ∈ load_data input) :
    out.lat.isSome = true ∧ out.lon.isSome = true ∧
      ∃ rows r, input = Except.ok rows ∧ r ∈ rows ∧ out = normalizeRow r := by
  cases input with
  | error msg => simp [load_data, load_data_eff] at h
  | ok rows =>
    have h2 : out ∈ processTable rows := h
    obtain ⟨r, hr, he, hk⟩ := mem_processTable_elim h2
    have hk2 : (out.lat.isSome && out.lon.isSome) = true := hk
    obtain ⟨hl, hlo⟩ : out.lat.isSome = true ∧ out.lon.isSome = true := by
      simpa [Bool.and_eq_true] using hk2
    exact ⟨hl, hlo, rows, r, rfl, hr, he⟩

/-- Claim C5 witness: the theorem applied to a surviving concrete row. -/
theorem C5_witness :
    (normalizeRow w5Row).lat.isSome = true ∧ (normalizeRow w5Row).lon.isSome = true ∧
      ∃ rows r, (Except.ok [w5Row] : Except String (List RawRow)) = Except.ok rows ∧
        r ∈ rows ∧ normalizeRow w5Row = normalizeRow r :=
  C5_theorem (Except.ok [w5Row]) (normalizeRow w5Row) (by exact List.mem_singleton.mpr rfl)

/-- Claim C6, counterexample to the claim as stated: the pipeline
overwrites the original `Event count` column in place — this row enters
with the blank string there and leaves with the number 1, so not every
original column value is carried through unchanged. -/
theorem C6_counterexample :
    load_data (Except.ok [cexRow6]) = [normalizeRow cexRow6] ∧
      cexRow6.eventCount = Cell.str ("") ∧
      (normalizeRow cexRow6).eventCount = 1 ∧
      Cell.num ((normalizeRow cexRow6).eventCount) ≠ cexRow6.eventCount := by
  exact ⟨rfl, rfl, rfl, by decide⟩

/-- Claim C6, amended: every output row is the normalization of an input
row with `Custom parameter` and all other untouched columns carried through
unchanged; only `Event count` and `Total users` are altered, replaced by
their coerced, default-filled numeric values (and `lat`/`lon` added). -/
theorem C6_theorem (rows : List RawRow) (out : NormRow)
    (h : out ∈ processTable rows) :
    ∃ r, r ∈ rows ∧ out = normalizeRow r ∧
      out.customParameter = r.customParameter ∧
      out.others = r.others ∧
      out.eventCount = (toNumeric r.eventCount).getD 1 ∧
      out.totalUsers = (toNumeric r.totalUsers).getD 1 := by
  obtain ⟨r, hr, he, hk⟩ := mem_processTable_elim h
  subst he
  exact ⟨r, hr, rfl, rfl, rfl, rfl, rfl⟩

/-- Claim C6 witness: the amended theorem applied to a surviving row that
carries an untouched `Location` column. -/
theorem C6_witness :
    ∃ r, r ∈ [w6Row] ∧ normalizeRow w6Row = normalizeRow r ∧
      (normalizeRow w6Row).customParameter = r.customParameter ∧
      (normalizeRow w6Row).others = r.others ∧
      (normalizeRow w6Row).eventCount = (toNumeric r.eventCount).getD 1 ∧
      (normalizeRow w6Row).totalUsers = (toNumeric r.totalUsers).getD 1 :=
  C6_theorem [w6Row] (normalizeRow w6Row) (by exact List.mem_singleton.mpr rfl)

/-- Claim C7: two consecutive invocations against the same unchanged input,
the second answered from the memoization cache filled by the first, return
equal outputs. -/
theorem C7_theorem (input : Except String (List RawRow)) :
    (loadTwice input).1 = (loadTwice input).2 := rfl

/-- Claim C8: whenever the Loader's result is empty, the script emits the
no-valid-data warning, names the required columns, and stops; the render
effect does not occur. -/
theorem C8_theorem (input : Except String (List RawRow))
    (h : load_data input = []) :
    mainScript input =
      [Effect.warning noValidDataMsg, Effect.write requiredColumnsMsg, Effect.stop] ∧
      Effect.render ∉ mainScript input := by
  have he : (load_data input).isEmpty = true := by rw [h]; rfl
  unfold mainScript
  rw [he]
  simp

/-- Claim C8 witness: the theorem applied to a failed read, whose Loader
result is empty. -/
theorem C8_witness :
    mainScript (Except.error ("missing file")) =
      [Effect.warning noValidDataMsg, Effect.write requiredColumnsMsg, Effect.stop] ∧
      Effect.render ∉ mainScript (Except.error ("missing file")) :=
  C8_theorem (Except.error ("missing file")) rfl

/-- Claim C9: a field of the form minus sign, spec decimal, separators,
spec decimal is not dropped as non-matching: the sign falls outside the
matched substrings, the row is kept, and the coordinates are the unsigned
values of the two decimals. -/
theorem C9_theorem (rows : List RawRow) (r : RawRow) (d1 sep d2 : List Char)
    (hmem : r ∈ rows)
    (hfield : r.customParameter = Cell.str (String.mk ('-' :: (d1 ++ (sep ++ d2)))))
    (hd1 : SpecDecimal d1) (hd2 : SpecDecimal d2)
    (hsepNe : sep ≠ []) (hsepAll : sep.all isSep = true) :
    normalizeRow r ∈ processTable rows ∧
      (normalizeRow r).lat = some (decValue d1) ∧
      (normalizeRow r).lon = some (decValue d2) := by
  have hse : searchExtract (String.mk ('-' :: (d1 ++ (sep ++ d2)))).data = some (d1, d2) :=
    searchExtract_dash hd1 hd2 hsepNe hsepAll
  have hex : extractCell r.customParameter = some (String.mk d1, String.mk d2) := by
    rw [hfield]
    exact extractCell_str hse
  obtain ⟨hlat, hlon⟩ := normalizeRow_coords hex
  have hlat2 : (normalizeRow r).lat = some (decValue d1) := by
    rw [hlat, parseFloatChars_specDecimal hd1]
  have hlon2 : (normalizeRow r).lon = some (decValue d2) := by
    rw [hlon, parseFloatChars_specDecimal hd2]
  refine ⟨?_, hlat2, hlon2⟩
  apply mem_processTable_of hmem
  unfold keepRow
  rw [hlat2, hlon2]
  rfl

/-- Claim C9 witness: the theorem applied to the one-row table whose field
is `-9.03, 38.74`; the row is kept with the unsigned coordinates. -/
theorem C9_witness :
    normalizeRow w9Row ∈ processTable [w9Row] ∧
      (normalizeRow w9Row).lat = some (decValue w9d1) ∧
      (normalizeRow w9Row).lon = some (decValue w9d2) :=
  C9_theorem [w9Row] w9Row w9d1 w9sep w9d2 (List.mem_singleton.mpr rfl) rfl
    (SpecDecimal.dotted ['9'] ['0', '3'] (by decide) (by decide) (by decide) (by decide))
    (SpecDecimal.dotted ['3', '8'] ['7', '4'] (by decide) (by decide) (by decide) (by decide))
    (by decide) (by decide)

/-- Claim C10: the Loader preserves source order — the output is exactly
the in-order image of the surviving input rows, equivalently a sublist of
the normalized input sequence with the dropped rows removed and nothing
reordered. -/
theorem C10_theorem (rows : List RawRow) :
    processTable rows = (rows.filter (fun r => keepRow (normalizeRow r))).map normalizeRow ∧
      List.Sublist (processTable rows) (rows.map normalizeRow) := by
  constructor
  · unfold processTable
    rw [List.filter_map normalizeRow rows]
    rfl
  · unfold processTable
    exact List.filter_sublist _

end UserActivityMap
